import Mathlib

/-!
Shallow embedding of the gallery API route (Next.js route handlers backed by
a blob store).  The embedded parts are the record normalizer `pushItem`, the
GET listing filter and sort, the GET error handling, and the category-to-
partition folder mappings of GET/POST/PUT.

Modelling conventions:
* JSON runtime values are the inductive `JVal`; JS numbers are modelled as
  `Rat` (no claim touches float-specific behaviour).
* A parsed JS object is a key/value list with unique keys; property access is
  first-match `List.lookup`.
* JS `a || b` on possibly-undefined strings is `jsOr` (the empty string is
  falsy and falls through, as in JS).
* `new Date().toISOString()` is the explicit parameter `now`; the JS date
  parser `new Date(s).getTime()` is an abstract parameter `dt : String → Int`.
* `Array.prototype.sort` is stable (ES2019), so the comparator
  `(a, b) => keyB - keyA` is embedded as a stable insertion sort descending
  by the parsed timestamp key.
-/

/-- Runtime JSON values as produced by `response.json()`. -/
inductive JVal where
  | null
  | bool (b : Bool)
  | num (q : Rat)
  | str (s : String)
  | arr (elems : List JVal)
  | obj (fields : List (String × JVal))

/-- Fields of a parsed JS object. -/
abbrev JFields := List (String × JVal)

/-- Embeds `typeof r[k] === 'string' ? r[k] : undefined` (the local `getStr`). -/
def getStr (fields : JFields) (k : String) : Option String :=
  match fields.lookup k with
  | some (JVal.str s) => some s
  | _ => none

/-- Embeds `Array.isArray(r[k]) ? r[k].filter(x => typeof x === 'string') : []`
(the local `getArrStr`). -/
def getArrStr (fields : JFields) (k : String) : List String :=
  match fields.lookup k with
  | some (JVal.arr xs) => xs.filterMap (fun v => match v with
      | JVal.str s => some s
      | _ => none)
  | _ => []

/-- Embeds `r[k] === true` for a boolean-flag property. -/
def flagTrue (fields : JFields) (k : String) : Bool :=
  match fields.lookup k with
  | some (JVal.bool true) => true
  | _ => false

/-- JS `a || b` where `a` may be `undefined` and the empty string is falsy. -/
def jsOr (a b : Option String) : Option String :=
  match a with
  | some s => if s = "" then b else some s
  | none => b

/-- JS `a || d` with a string literal default `d`: the final value of a
`||` chain. -/
def jsVal (a : Option String) (d : String) : String :=
  match a with
  | some s => if s = "" then d else s
  | none => d

/-- JS truthiness of a possibly-undefined string (`firstImage ? … : …`). -/
def jsTruthy (a : Option String) : Bool :=
  match a with
  | some s => s != ""
  | none => false

/-- JS truthiness of a possibly-undefined JSON value (`data && data.id`). -/
def jsTruthyJ (a : Option JVal) : Bool :=
  match a with
  | none => false
  | some JVal.null => false
  | some (JVal.bool b) => b
  | some (JVal.num q) => q != 0
  | some (JVal.str s) => s != ""
  | some (JVal.arr _) => true
  | some (JVal.obj _) => true

/-- Normalized gallery item, the runtime shape built by `pushItem`
(the TS interface `GalleryItem` with every defaulted field populated).
String-typed enum-like fields (`type`, `store`, `appCategory`, `status`)
are plain strings, as at the JS runtime. -/
structure GalleryItem where
  id : String
  title : String
  content : String
  author : String
  imageUrl : Option String
  publishDate : String
  tags : List String
  isPublished : Bool
  type : String
  store : String
  storeUrl : Option String
  appCategory : String
  status : String
  name : String
  developer : String
  description : String
  iconUrl : String
  screenshotUrls : List String
  rating : Rat
  downloads : String
  version : String
  size : String
  category : String
  views : Rat
  likes : Rat
  uploadDate : String
  isFeatured : Bool
  isEvent : Bool
  adminStoreUrl : Option String
deriving DecidableEq, Repr

/-- Embeds the local `pickStatus`: a recognized explicit `status` string wins,
anything else falls back to the legacy `isPublished` flag. -/
def pickStatus (fields : JFields) : String :=
  match getStr fields "status" with
  | some s =>
    if s = "published" ∨ s = "in-review" ∨ s = "development" then s
    else if flagTrue fields "isPublished" then "published" else "development"
  | none => if flagTrue fields "isPublished" then "published" else "development"

/-- Embeds the local `pickStore`. -/
def pickStore (fields : JFields) : String :=
  if getStr fields "store" = some "app-store" then "app-store" else "google-play"

/-- Embeds the local `pickType`; `reqType` is the GET `type` query parameter
(`type || 'gallery'`). -/
def pickType (reqType : String) (fields : JFields) : String :=
  match getStr fields "type" with
  | some t =>
    if t = "gallery" ∨ t = "featured" ∨ t = "events" ∨ t = "normal" then t
    else if reqType = "" then "gallery" else reqType
  | none => if reqType = "" then "gallery" else reqType

/-- Embeds the local `pickCategory`. -/
def pickCategory (reqType : String) (fields : JFields) : String :=
  match getStr fields "appCategory" with
  | some c =>
    if c = "featured" ∨ c = "events" ∨ c = "normal" then c
    else if reqType = "featured" then "featured"
    else if reqType = "events" then "events"
    else "normal"
  | none =>
    if reqType = "featured" then "featured"
    else if reqType = "events" then "events"
    else "normal"

/-- Embeds `getStr('imageUrl') || getStr('iconUrl') || getArrStr('screenshotUrls')[0]`. -/
def firstImage (fields : JFields) : Option String :=
  jsOr (jsOr (getStr fields "imageUrl") (getStr fields "iconUrl"))
    (getArrStr fields "screenshotUrls").head?

/-- Embeds `typeof r[k] === 'number' ? r[k] : d`. -/
def numOr (fields : JFields) (k : String) (d : Rat) : Rat :=
  match fields.lookup k with
  | some (JVal.num q) => q
  | _ => d

/-- Builds the `normalized` object literal of `pushItem`, given an already
accepted non-empty string `id`. -/
def normalizeFields (reqType now id : String) (fields : JFields) : GalleryItem :=
  { id := id
    title := jsVal (jsOr (getStr fields "title") (getStr fields "name")) ""
    content := jsVal (jsOr (getStr fields "content") (getStr fields "description")) ""
    author := jsVal (jsOr (getStr fields "author") (getStr fields "developer")) ""
    imageUrl := firstImage fields
    publishDate := jsVal (jsOr (getStr fields "publishDate") (getStr fields "uploadDate")) now
    tags := getArrStr fields "tags"
    isPublished := flagTrue fields "isPublished" || pickStatus fields == "published"
    type := pickType reqType fields
    store := pickStore fields
    storeUrl := getStr fields "storeUrl"
    appCategory := pickCategory reqType fields
    status := pickStatus fields
    name := jsVal (jsOr (getStr fields "name") (getStr fields "title")) ""
    developer := jsVal (jsOr (getStr fields "developer") (getStr fields "author")) ""
    description := jsVal (jsOr (getStr fields "description") (getStr fields "content")) ""
    iconUrl := jsVal (jsOr (getStr fields "iconUrl") (firstImage fields)) ""
    screenshotUrls :=
      if getArrStr fields "screenshotUrls" ≠ [] then getArrStr fields "screenshotUrls"
      else if jsTruthy (firstImage fields) then [(firstImage fields).getD ""] else []
    rating := numOr fields "rating" (9 / 2 : Rat)
    downloads := jsVal (getStr fields "downloads") "1K+"
    version := jsVal (getStr fields "version") "1.0.0"
    size := jsVal (getStr fields "size") "50MB"
    category := jsVal (getStr fields "category") ""
    views := numOr fields "views" 0
    likes := numOr fields "likes" 0
    uploadDate := jsVal (jsOr (getStr fields "uploadDate") (getStr fields "publishDate")) now
    isFeatured := flagTrue fields "isFeatured"
    isEvent := flagTrue fields "isEvent"
    adminStoreUrl := getStr fields "adminStoreUrl" }

/-- Embeds the local `pushItem` closure of the GET handler: rejects non-objects
and objects without a truthy string `id`, otherwise appends a normalized item.
Returning `none` models the early `return` (nothing pushed). -/
def pushItem (reqType now : String) (raw : JVal) : Option GalleryItem :=
  match raw with
  | JVal.obj fields =>
    match fields.lookup "id" with
    | some (JVal.str id) =>
      if id = "" then none else some (normalizeFields reqType now id fields)
    | _ => none
  | _ => none

example :
    (pushItem "featured" "T"
        (JVal.obj [("id", JVal.str "a1"), ("name", JVal.str "Foo"),
                   ("isPublished", JVal.bool true)])).map
      (fun r => (r.title, r.isPublished, r.status)) =
    some ("Foo", true, "published") := by decide

example : pushItem "gallery" "T" (JVal.obj [("id", JVal.str "")]) = none := by decide

/-- Embeds the GET post-normalization filter (`filteredItems`, the
type-dependent `items.filter`). -/
def keepForType (t : String) (item : GalleryItem) : Bool :=
  if t = "gallery" ∨ t = "normal" then
    item.isPublished || item.status == "in-review" || item.status == "published"
  else
    item.isPublished

/-- Sort key of the GET comparator
`new Date(a.uploadDate || a.publishDate || 0).getTime()`, with the JS date
parser abstracted as `dt : String → Int` (`new Date(0).getTime()` is `0`). -/
def sortKey (dt : String → Int) (a : GalleryItem) : Int :=
  if a.uploadDate ≠ "" then dt a.uploadDate
  else if a.publishDate ≠ "" then dt a.publishDate
  else 0

/-- Inserts an item into a descending-by-key list, before any element of equal
key: the position a stable descending sort assigns to an element preceding the
list's elements in encounter order. -/
def insertDesc (key : GalleryItem → Int) (x : GalleryItem) :
    List GalleryItem → List GalleryItem
  | [] => [x]
  | y :: ys => if key y ≤ key x then x :: y :: ys else y :: insertDesc key x ys

/-- Embeds `filteredItems.sort((a, b) => bd - ad)`: `Array.prototype.sort` is
stable and the comparator is a total preorder by `sortKey dt`, so the result
is the stable descending-by-key permutation, realized here as a stable
insertion sort. -/
def sortItems (dt : String → Int) : List GalleryItem → List GalleryItem
  | [] => []
  | x :: xs => insertDesc (sortKey dt) x (sortItems dt xs)

/-- Outcome of one stored JSON blob as seen by the GET loop: `none` when the
fetch failed, the response was not ok, or the body was unparseable (all
silently skipped by the inner try/catch); otherwise the parsed JSON body. -/
abbrev BlobData := Option JVal

/-- Embeds the per-blob dispatch of the GET loop: an array body is expanded
element-wise through `pushItem`; a single object is pushed when its `id` is
truthy (`data && data.id`); anything else contributes nothing. -/
def processBlob (reqType now : String) (data : BlobData) : List GalleryItem :=
  match data with
  | none => []
  | some (JVal.arr xs) => xs.filterMap (pushItem reqType now)
  | some (JVal.obj fs) =>
    if jsTruthyJ (fs.lookup "id") then (pushItem reqType now (JVal.obj fs)).toList
    else []
  | some _ => []

/-- HTTP-level result of the GET handler. -/
inductive GetResult where
  | badRequest (body : String)
  | serverError (body : String)
  | ok (items : List GalleryItem)

/-- Embeds the GET handler: `typeParam` is `searchParams.get('type')` (`none`
when the query parameter is absent); `enumResult` stands for the blob-store
interaction — `Except.error` when the `list` call throws (caught by the outer
try/catch and turned into a 500), otherwise the fetched bodies of the
enumerated `.json` blobs in encounter order. -/
def listingGET (dt : String → Int) (typeParam : Option String) (now : String)
    (enumResult : Except String (List BlobData)) : GetResult :=
  match typeParam with
  | none => GetResult.badRequest "Type parameter is required"
  | some t =>
    if t = "" then GetResult.badRequest "Type parameter is required"
    else
      match enumResult with
      | Except.error _ => GetResult.serverError "갤러리 조회 실패"
      | Except.ok blobs =>
        let items := (blobs.map (processBlob t now)).flatten
        GetResult.ok (sortItems dt (items.filter (keepForType t)))

/-- Embeds the `folderPaths` set built by GET (and PUT/DELETE), in insertion
order. -/
def getFolderPaths (t : String) : List String :=
  if t = "gallery" ∨ t = "normal" then ["gallery-gallery", "gallery-normal"]
  else if t = "featured" then ["gallery-featured"]
  else if t = "events" then ["gallery-events"]
  else []

/-- Embeds the POST `jsonFolder` choice: `gallery` and `normal` both write to
`gallery-gallery`. -/
def postJsonFolder (t : String) : String :=
  if t = "gallery" ∨ t = "normal" then "gallery-gallery" else "gallery-" ++ t

/-- Embeds the PUT `jsonFolder` choice: only `gallery` is redirected to
`gallery-gallery`; `normal` writes to the legacy `gallery-normal`. -/
def putJsonFolder (t : String) : String :=
  if t = "gallery" then "gallery-gallery" else "gallery-" ++ t

/-- Characterization of the `isPublished === true` test. -/
theorem flagTrue_iff (fields : JFields) (k : String) :
    flagTrue fields k = true ↔ fields.lookup k = some (JVal.bool true) := by
  unfold flagTrue
  cases hl : fields.lookup k with
  | none => simp
  | some v =>
    cases v with
    | bool b => cases b <;> simp
    | null => simp
    | num q => simp
    | str s => simp
    | arr xs => simp
    | obj fs => simp

/-- Characterization of the `typeof r[k] === 'string'` accessor. -/
theorem getStr_eq_some_iff (fields : JFields) (k s : String) :
    getStr fields k = some s ↔ fields.lookup k = some (JVal.str s) := by
  unfold getStr
  cases hl : fields.lookup k with
  | none => simp
  | some v =>
    cases v with
    | bool b => simp
    | null => simp
    | num q => simp
    | str u => simp
    | arr xs => simp
    | obj fs => simp

/-- Inversion of `pushItem`: a produced record comes from a JSON object with a
non-empty string `id`, and equals the object literal built by
`normalizeFields`. -/
theorem pushItem_eq_some {reqType now : String} {raw : JVal} {rec : GalleryItem}
    (h : pushItem reqType now raw = some rec) :
    ∃ fields id, raw = JVal.obj fields ∧
      fields.lookup "id" = some (JVal.str id) ∧ id ≠ "" ∧
      rec = normalizeFields reqType now id fields := by
  cases raw with
  | null => exact absurd h (by simp [pushItem])
  | bool b => exact absurd h (by simp [pushItem])
  | num q => exact absurd h (by simp [pushItem])
  | str s => exact absurd h (by simp [pushItem])
  | arr xs => exact absurd h (by simp [pushItem])
  | obj fields =>
    have h' : (match fields.lookup "id" with
        | some (JVal.str id) =>
          if id = "" then none else some (normalizeFields reqType now id fields)
        | _ => none) = some rec := h
    cases hid : fields.lookup "id" with
    | none => rw [hid] at h'; exact absurd h' (by simp)
    | some v =>
      rw [hid] at h'
      cases v with
      | str id =>
        have h'' : (if id = "" then none
            else some (normalizeFields reqType now id fields)) = some rec := h'
        by_cases he : id = ""
        · rw [if_pos he] at h''
          exact absurd h'' (by simp)
        · rw [if_neg he] at h''
          exact ⟨fields, id, rfl, hid, he, (Option.some.inj h'').symm⟩
      | null => exact absurd h' (by simp)
      | bool b => exact absurd h' (by simp)
      | num q => exact absurd h' (by simp)
      | arr ys => exact absurd h' (by simp)
      | obj fs => exact absurd h' (by simp)

/-- Value of `pickStatus` when the raw `status` is a recognized string. -/
theorem pickStatus_explicit (fields : JFields) (s : String)
    (hs : fields.lookup "status" = some (JVal.str s))
    (hrec : s = "published" ∨ s = "in-review" ∨ s = "development") :
    pickStatus fields = s := by
  have hg : getStr fields "status" = some s := (getStr_eq_some_iff fields "status" s).mpr hs
  simp [pickStatus, hg, hrec]

/-- Value of `pickStatus` when no recognized explicit status exists: the legacy
flag decides. -/
theorem pickStatus_fallback (fields : JFields)
    (h : ∀ s, fields.lookup "status" = some (JVal.str s) →
      ¬(s = "published" ∨ s = "in-review" ∨ s = "development")) :
    pickStatus fields =
      (if flagTrue fields "isPublished" then "published" else "development") := by
  cases hg : getStr fields "status" with
  | none => simp [pickStatus, hg]
  | some s =>
    have hbad := h s ((getStr_eq_some_iff fields "status" s).mp hg)
    simp [pickStatus, hg, hbad]

/-- The resolved status always lies in the closed 3-value set. -/
theorem pickStatus_mem (fields : JFields) :
    pickStatus fields = "published" ∨ pickStatus fields = "in-review" ∨
      pickStatus fields = "development" := by
  cases hg : getStr fields "status" with
  | none =>
    by_cases hf : flagTrue fields "isPublished"
    · left; simp [pickStatus, hg, hf]
    · right; right; simp [pickStatus, hg, hf]
  | some s =>
    by_cases hrec : s = "published" ∨ s = "in-review" ∨ s = "development"
    · have : pickStatus fields = s := by simp [pickStatus, hg, hrec]
      rcases hrec with h1 | h1 | h1
      · left; rw [this, h1]
      · right; left; rw [this, h1]
      · right; right; rw [this, h1]
    · by_cases hf : flagTrue fields "isPublished"
      · left; simp [pickStatus, hg, hrec, hf]
      · right; right; simp [pickStatus, hg, hrec, hf]

@[simp] theorem normalizeFields_id (rt now id : String) (f : JFields) :
    (normalizeFields rt now id f).id = id := rfl

@[simp] theorem normalizeFields_status (rt now id : String) (f : JFields) :
    (normalizeFields rt now id f).status = pickStatus f := rfl

@[simp] theorem normalizeFields_isPublished (rt now id : String) (f : JFields) :
    (normalizeFields rt now id f).isPublished =
      (flagTrue f "isPublished" || pickStatus f == "published") := rfl

@[simp] theorem normalizeFields_title (rt now id : String) (f : JFields) :
    (normalizeFields rt now id f).title =
      jsVal (jsOr (getStr f "title") (getStr f "name")) "" := rfl

@[simp] theorem normalizeFields_content (rt now id : String) (f : JFields) :
    (normalizeFields rt now id f).content =
      jsVal (jsOr (getStr f "content") (getStr f "description")) "" := rfl

@[simp] theorem normalizeFields_author (rt now id : String) (f : JFields) :
    (normalizeFields rt now id f).author =
      jsVal (jsOr (getStr f "author") (getStr f "developer")) "" := rfl

@[simp] theorem normalizeFields_imageUrl (rt now id : String) (f : JFields) :
    (normalizeFields rt now id f).imageUrl = firstImage f := rfl

@[simp] theorem normalizeFields_screenshotUrls (rt now id : String) (f : JFields) :
    (normalizeFields rt now id f).screenshotUrls =
      (if getArrStr f "screenshotUrls" ≠ [] then getArrStr f "screenshotUrls"
       else if jsTruthy (firstImage f) then [(firstImage f).getD ""] else []) := rfl

/-- C1: for every raw object accepted by the normalizer, the produced record's
`isPublished` is true iff the legacy `isPublished` flag was explicitly `true`
or the resolved `status` equals `published`. -/
theorem pushItem_published_iff_flag_or_status (reqType now : String)
    (fields : JFields) (rec : GalleryItem)
    (h : pushItem reqType now (JVal.obj fields) = some rec) :
    rec.isPublished = true ↔
      (fields.lookup "isPublished" = some (JVal.bool true) ∨
        rec.status = "published") := by
  obtain ⟨f, id, hobj, hid, hne, hrec⟩ := pushItem_eq_some h
  injection hobj with hf
  subst hf
  subst hrec
  simp [Bool.or_eq_true, beq_iff_eq, flagTrue_iff]

/-- Closed instance of `pushItem_published_iff_flag_or_status`: the flag alone
(explicit status `in-review`) already latches `isPublished`. -/
theorem pushItem_published_iff_flag_or_status_witness :
    (normalizeFields "gallery" "t0" "w1"
      [("id", JVal.str "w1"), ("isPublished", JVal.bool true),
       ("status", JVal.str "in-review")]).isPublished = true :=
  (pushItem_published_iff_flag_or_status "gallery" "t0"
    [("id", JVal.str "w1"), ("isPublished", JVal.bool true),
     ("status", JVal.str "in-review")] _ rfl).mpr (Or.inl rfl)

/-- C3: for every accepted raw object the resolved status is in the closed
3-value set; a recognized explicit `status` string wins; any other raw
`status` value is treated as absent and the status is inferred from the
legacy flag. -/
theorem pushItem_status_resolution (reqType now : String) (fields : JFields)
    (rec : GalleryItem) (h : pushItem reqType now (JVal.obj fields) = some rec) :
    (rec.status = "published" ∨ rec.status = "in-review" ∨
        rec.status = "development")
    ∧ (∀ s, fields.lookup "status" = some (JVal.str s) →
        (s = "published" ∨ s = "in-review" ∨ s = "development") → rec.status = s)
    ∧ ((∀ s, fields.lookup "status" = some (JVal.str s) →
          ¬(s = "published" ∨ s = "in-review" ∨ s = "development")) →
        rec.status =
          (if flagTrue fields "isPublished" then "published" else "development")) := by
  obtain ⟨f, id, hobj, hid, hne, hrec⟩ := pushItem_eq_some h
  injection hobj with hf
  subst hf
  subst hrec
  refine ⟨pickStatus_mem fields, ?_, ?_⟩
  · intro s hs hrec2
    exact pickStatus_explicit fields s hs hrec2
  · intro hnone
    exact pickStatus_fallback fields hnone

/-- Closed instance of `pushItem_status_resolution`: the unrecognized raw
status `"weird"` is not passed through; the true legacy flag yields
`published`. -/
theorem pushItem_status_resolution_witness :
    (normalizeFields "gallery" "t0" "w3"
      [("id", JVal.str "w3"), ("status", JVal.str "weird"),
       ("isPublished", JVal.bool true)]).status = "published" := by
  have h := (pushItem_status_resolution "gallery" "t0"
    [("id", JVal.str "w3"), ("status", JVal.str "weird"),
     ("isPublished", JVal.bool true)] _ rfl).2.2
  have hb : ∀ s, ([("id", JVal.str "w3"), ("status", JVal.str "weird"),
      ("isPublished", JVal.bool true)] : JFields).lookup "status" =
        some (JVal.str s) →
      ¬(s = "published" ∨ s = "in-review" ∨ s = "development") := by
    intro s hs
    have : s = "weird" := by
      have := Option.some.inj hs
      injection this with h2
      exact h2.symm
    subst this
    decide
  rw [h hb]
  decide

/-- C4: the normalizer produces no record when the raw value is not an object
or when the `id` property is not a non-empty string (in particular a raw
string `id` equal to `""` is rejected), and every record it does produce has
a non-empty `id`. -/
theorem pushItem_rejects_invalid (reqType now : String) (raw : JVal) :
    ((∀ fields, raw ≠ JVal.obj fields) → pushItem reqType now raw = none)
    ∧ (∀ fields, raw = JVal.obj fields →
        (∀ s, fields.lookup "id" = some (JVal.str s) → s = "") →
        pushItem reqType now raw = none)
    ∧ (∀ rec, pushItem reqType now raw = some rec → rec.id ≠ "") := by
  refine ⟨?_, ?_, ?_⟩
  · intro hno
    cases raw with
    | obj fields => exact absurd rfl (hno fields)
    | null => rfl
    | bool b => rfl
    | num q => rfl
    | str s => rfl
    | arr xs => rfl
  · intro fields hraw hbad
    subst hraw
    cases hid : fields.lookup "id" with
    | none => simp [pushItem, hid]
    | some v =>
      cases v with
      | str s =>
        have hs := hbad s hid
        simp [pushItem, hid, hs]
      | null => simp [pushItem, hid]
      | bool b => simp [pushItem, hid]
      | num q => simp [pushItem, hid]
      | arr ys => simp [pushItem, hid]
      | obj fs => simp [pushItem, hid]
  · intro rec h
    obtain ⟨f, id, hobj, hid, hne, hrec⟩ := pushItem_eq_some h
    subst hrec
    simpa using hne

/-- Closed instances of `pushItem_rejects_invalid`: a non-object raw value, an
object without a string `id`, and an object whose `id` is the empty string are
all rejected. -/
theorem pushItem_rejects_invalid_witness :
    pushItem "gallery" "t0" (JVal.str "junk") = none
    ∧ pushItem "gallery" "t0" (JVal.obj [("name", JVal.str "Foo")]) = none
    ∧ pushItem "gallery" "t0" (JVal.obj [("id", JVal.str "")]) = none :=
  ⟨(pushItem_rejects_invalid "gallery" "t0" (JVal.str "junk")).1
      (fun _ hh => JVal.noConfusion hh),
   (pushItem_rejects_invalid "gallery" "t0"
      (JVal.obj [("name", JVal.str "Foo")])).2.1 _ rfl
      (fun s hs => Option.noConfusion hs),
   (pushItem_rejects_invalid "gallery" "t0"
      (JVal.obj [("id", JVal.str "")])).2.1 _ rfl
      (fun s hs => by
        have := Option.some.inj hs
        injection this with h2
        exact h2.symm)⟩

/-- C8 scenario input: `{id:"a1", name:"Foo", isPublished:true}`. -/
def scenarioRaw : JVal :=
  JVal.obj [("id", JVal.str "a1"), ("name", JVal.str "Foo"),
            ("isPublished", JVal.bool true)]

/-- C8: normalizing `{id:"a1", name:"Foo", isPublished:true}` under requested
category `featured` yields title `"Foo"`, `isPublished` true, status
`published`, and category `featured` (both the partition-determining `type`
and the `appCategory` field). -/
theorem pushItem_scenario_featured :
    (pushItem "featured" "2024-01-01T00:00:00.000Z" scenarioRaw).map
      (fun r => (r.title, r.isPublished, r.status, r.type, r.appCategory)) =
    some ("Foo", true, "published", "featured", "featured") := by decide

/-- Records whose resolved status is `published` always carry the latched
`isPublished` flag. -/
theorem pushItem_status_published_imp (reqType now : String) (fields : JFields)
    (rec : GalleryItem) (h : pushItem reqType now (JVal.obj fields) = some rec)
    (hs : rec.status = "published") : rec.isPublished = true := by
  obtain ⟨f, id, hobj, hid, hne, hrec⟩ := pushItem_eq_some h
  injection hobj with hf
  subst hf
  subst hrec
  simp only [normalizeFields_status] at hs
  simp [hs]

/-- C2: the listing keeps exactly the records the filter admits — for
requested categories `gallery`/`normal` a normalized record is kept iff
`isPublished` is true or its status is `in-review`; for `featured`/`events`
it is kept iff `isPublished` is true. -/
theorem filteredItems_mem_iff (reqType now t : String) (fields : JFields)
    (rec : GalleryItem) (items : List GalleryItem)
    (h : pushItem reqType now (JVal.obj fields) = some rec) :
    ((t = "gallery" ∨ t = "normal") →
      (rec ∈ items.filter (keepForType t) ↔
        rec ∈ items ∧ (rec.isPublished = true ∨ rec.status = "in-review")))
    ∧ ((t = "featured" ∨ t = "events") →
      (rec ∈ items.filter (keepForType t) ↔
        rec ∈ items ∧ rec.isPublished = true)) := by
  constructor
  · intro ht
    have hk : keepForType t rec = true ↔
        (rec.isPublished = true ∨ rec.status = "in-review") := by
      have hcond : t = "gallery" ∨ t = "normal" := ht
      simp only [keepForType, if_pos hcond, Bool.or_eq_true, beq_iff_eq]
      constructor
      · rintro ((hp | hs) | hs)
        · exact Or.inl hp
        · exact Or.inr hs
        · exact Or.inl (pushItem_status_published_imp reqType now fields rec h hs)
      · rintro (hp | hs)
        · exact Or.inl (Or.inl hp)
        · exact Or.inl (Or.inr hs)
    rw [List.mem_filter, hk]
  · intro ht
    have hk : keepForType t rec = true ↔ rec.isPublished = true := by
      have hcond : ¬(t = "gallery" ∨ t = "normal") := by
        rcases ht with h1 | h1 <;> subst h1 <;> decide
      simp only [keepForType, if_neg hcond]
    rw [List.mem_filter, hk]

/-- Closed instance of `filteredItems_mem_iff`: an in-review, unpublished
record is kept by the `gallery` listing filter. -/
theorem filteredItems_mem_iff_witness :
    normalizeFields "gallery" "t0" "w2"
        [("id", JVal.str "w2"), ("status", JVal.str "in-review")] ∈
      List.filter (keepForType "gallery")
        [normalizeFields "gallery" "t0" "w2"
          [("id", JVal.str "w2"), ("status", JVal.str "in-review")]] :=
  ((filteredItems_mem_iff "gallery" "t0" "gallery"
      [("id", JVal.str "w2"), ("status", JVal.str "in-review")] _ _ rfl).1
    (Or.inl rfl)).mpr ⟨List.mem_singleton_self _, Or.inr rfl⟩

/-- Membership in `insertDesc`. -/
theorem mem_insertDesc (key : GalleryItem → Int) (x a : GalleryItem)
    (l : List GalleryItem) :
    a ∈ insertDesc key x l ↔ a = x ∨ a ∈ l := by
  induction l with
  | nil => simp [insertDesc]
  | cons y ys ih =>
    by_cases hc : key y ≤ key x
    · simp only [insertDesc, if_pos hc, List.mem_cons]
    · simp only [insertDesc, if_neg hc, List.mem_cons, ih]
      tauto

/-- `insertDesc` preserves the descending pairwise order. -/
theorem pairwise_insertDesc (key : GalleryItem → Int) (x : GalleryItem)
    (l : List GalleryItem)
    (hl : l.Pairwise (fun a b => key b ≤ key a)) :
    (insertDesc key x l).Pairwise (fun a b => key b ≤ key a) := by
  induction l with
  | nil => simp [insertDesc]
  | cons y ys ih =>
    rcases List.pairwise_cons.mp hl with ⟨hy, hys⟩
    by_cases hc : key y ≤ key x
    · simp only [insertDesc, if_pos hc]
      refine List.pairwise_cons.mpr ⟨?_, hl⟩
      intro z hz
      rcases List.mem_cons.mp hz with h1 | h1
      · subst h1; exact hc
      · exact le_trans (hy z h1) hc
    · simp only [insertDesc, if_neg hc]
      refine List.pairwise_cons.mpr ⟨?_, ih hys⟩
      intro z hz
      rcases (mem_insertDesc key x z ys).mp hz with h1 | h1
      · subst h1; exact le_of_not_le hc
      · exact hy z h1

/-- `insertDesc` permutes consing. -/
theorem perm_insertDesc (key : GalleryItem → Int) (x : GalleryItem)
    (l : List GalleryItem) : (insertDesc key x l).Perm (x :: l) := by
  induction l with
  | nil => exact List.Perm.refl _
  | cons y ys ih =>
    by_cases hc : key y ≤ key x
    · simp only [insertDesc, if_pos hc]
      exact List.Perm.refl _
    · simp only [insertDesc, if_neg hc]
      exact (ih.cons y).trans (List.Perm.swap x y ys)

/-- Filtering by an exact key value commutes with `insertDesc`: the inserted
element lands in front of every element of equal key. -/
theorem filter_key_insertDesc (key : GalleryItem → Int) (x : GalleryItem)
    (l : List GalleryItem) (k : Int) :
    (insertDesc key x l).filter (fun a => key a == k) =
      (if key x = k then x :: l.filter (fun a => key a == k)
       else l.filter (fun a => key a == k)) := by
  induction l with
  | nil =>
    simp only [insertDesc, List.filter_cons, List.filter_nil]
    by_cases hx : key x = k
    · simp [hx]
    · simp [hx]
  | cons y ys ih =>
    by_cases hc : key y ≤ key x
    · simp only [insertDesc, if_pos hc, List.filter_cons]
      by_cases hx : key x = k
      · simp [hx]
      · simp [hx]
    · have hyx : key x < key y := lt_of_not_le hc
      simp only [insertDesc, if_neg hc, List.filter_cons, ih]
      by_cases hx : key x = k
      · have hy : key y ≠ k := by
          intro hk
          exact absurd (hk.trans hx.symm) (ne_of_gt hyx)
        simp [hx, hy]
      · by_cases hy : key y = k
        · simp [hx, hy]
        · simp [hx, hy]

/-- The embedded sort is descending by key. -/
theorem sortItems_pairwise (dt : String → Int) (l : List GalleryItem) :
    (sortItems dt l).Pairwise (fun a b => sortKey dt b ≤ sortKey dt a) := by
  induction l with
  | nil => simp [sortItems]
  | cons x xs ih => exact pairwise_insertDesc (sortKey dt) x (sortItems dt xs) ih

/-- The embedded sort is stable: elements of any fixed key keep their
encounter order. -/
theorem sortItems_filter_key (dt : String → Int) (l : List GalleryItem)
    (k : Int) :
    (sortItems dt l).filter (fun a => sortKey dt a == k) =
      l.filter (fun a => sortKey dt a == k) := by
  induction l with
  | nil => rfl
  | cons x xs ih =>
    show (insertDesc (sortKey dt) x (sortItems dt xs)).filter _ = _
    rw [filter_key_insertDesc, ih, List.filter_cons]
    by_cases hx : sortKey dt x = k
    · simp [hx]
    · simp [hx]

/-- The embedded sort permutes its input. -/
theorem sortItems_perm (dt : String → Int) (l : List GalleryItem) :
    (sortItems dt l).Perm l := by
  induction l with
  | nil => exact List.Perm.refl _
  | cons x xs ih =>
    exact (perm_insertDesc (sortKey dt) x (sortItems dt xs)).trans (ih.cons x)

/-- C5: the sequence the listing sorts is non-increasing in `sortKey` (most
recent first), the sort is stable (records of equal key keep encounter
order), and every successful GET response is so sorted. -/
theorem sortItems_sorted_stable (dt : String → Int) (items : List GalleryItem) :
    (sortItems dt items).Pairwise (fun a b => sortKey dt b ≤ sortKey dt a)
    ∧ (∀ k : Int, (sortItems dt items).filter (fun a => sortKey dt a == k) =
        items.filter (fun a => sortKey dt a == k))
    ∧ (∀ typeParam now enumRes out,
        listingGET dt typeParam now enumRes = GetResult.ok out →
        out.Pairwise (fun a b => sortKey dt b ≤ sortKey dt a)) := by
  refine ⟨sortItems_pairwise dt items, sortItems_filter_key dt items, ?_⟩
  intro typeParam now enumRes out h
  cases typeParam with
  | none => exact absurd h (by simp [listingGET])
  | some t =>
    by_cases ht : t = ""
    · exact absurd h (by simp [listingGET, ht])
    · cases enumRes with
      | error e => exact absurd h (by simp [listingGET, ht])
      | ok blobs =>
        have h' : GetResult.ok (sortItems dt
            (((blobs.map (processBlob t now)).flatten).filter (keepForType t))) =
            GetResult.ok out := by
          simpa [listingGET, ht] using h
        injection h' with h2
        rw [← h2]
        exact sortItems_pairwise dt _

/-- Closed instance of `sortItems_sorted_stable`: the response of a GET with
an empty enumeration is sorted. -/
theorem sortItems_sorted_stable_witness :
    List.Pairwise (fun a b => sortKey (fun _ => 0) b ≤ sortKey (fun _ => 0) a)
      ([] : List GalleryItem) :=
  (sortItems_sorted_stable (fun _ => 0) []).2.2 (some "gallery") "t0"
    (Except.ok []) [] rfl

/-- C9: the GET handler returns the 400 error body when the category
parameter is missing, returns the explicit 500 error signal when the
partition enumeration call fails (never a partial list silently treated as
complete), and recovers an individual failed blob locally by skipping it. -/
theorem listingGET_error_handling (dt : String → Int) (now t msg : String)
    (blobs : List BlobData) :
    listingGET dt none now (Except.ok blobs) =
        GetResult.badRequest "Type parameter is required"
    ∧ listingGET dt none now (Except.error msg) =
        GetResult.badRequest "Type parameter is required"
    ∧ (t ≠ "" → listingGET dt (some t) now (Except.error msg) =
        GetResult.serverError "갤러리 조회 실패")
    ∧ (t ≠ "" → listingGET dt (some t) now (Except.ok (none :: blobs)) =
        listingGET dt (some t) now (Except.ok blobs)) := by
  refine ⟨rfl, rfl, ?_, ?_⟩
  · intro ht
    simp [listingGET, ht]
  · intro ht
    simp [listingGET, ht, processBlob]

/-- Closed instances of `listingGET_error_handling`: an enumeration failure
yields the 500 signal, and a failed blob fetch leaves the listing unchanged. -/
theorem listingGET_error_handling_witness :
    listingGET (fun _ => 0) (some "gallery") "t0" (Except.error "boom") =
        GetResult.serverError "갤러리 조회 실패"
    ∧ listingGET (fun _ => 0) (some "gallery") "t0" (Except.ok [none]) =
        listingGET (fun _ => 0) (some "gallery") "t0" (Except.ok []) :=
  ⟨((listingGET_error_handling (fun _ => 0) "t0" "gallery" "boom" []).2.2.1)
      (by decide),
   ((listingGET_error_handling (fun _ => 0) "t0" "gallery" "boom" []).2.2.2)
      (by decide)⟩

/-- C10: the create handler maps both `gallery` and `normal` to the
`gallery-gallery` partition while the update handler maps `normal` to the
legacy `gallery-normal` partition — the two write mappings differ on
`normal` — yet every write target lies inside the listing's read set
`{gallery-gallery, gallery-normal}` for those categories. -/
theorem writeFolders_within_read_set :
    postJsonFolder "normal" = "gallery-gallery"
    ∧ putJsonFolder "normal" = "gallery-normal"
    ∧ postJsonFolder "normal" ≠ putJsonFolder "normal"
    ∧ getFolderPaths "gallery" = ["gallery-gallery", "gallery-normal"]
    ∧ getFolderPaths "normal" = ["gallery-gallery", "gallery-normal"]
    ∧ postJsonFolder "gallery" ∈ getFolderPaths "gallery"
    ∧ postJsonFolder "normal" ∈ getFolderPaths "normal"
    ∧ putJsonFolder "gallery" ∈ getFolderPaths "gallery"
    ∧ putJsonFolder "normal" ∈ getFolderPaths "normal" := by
  refine ⟨?_, ?_, ?_, ?_, ?_, ?_, ?_, ?_, ?_⟩ <;> decide

/-- C6 counterexample input: the modern `title` set to the empty string and
the legacy `name` set to `"Foo"` — both fields set, to different values. -/
def modernEmptyRaw : JVal :=
  JVal.obj [("id", JVal.str "a"), ("title", JVal.str ""),
            ("name", JVal.str "Foo")]

/-- C6 counterexample: with `title = ""` and `name = "Foo"` both set and
different, the normalized record's `title` is the legacy value `"Foo"`, not
the modern field's value `""` — the JS `||` chain treats the empty string as
absent. -/
theorem modern_empty_loses_cex :
    (pushItem "gallery" "t0" modernEmptyRaw).map (fun r => r.title) =
      some "Foo" ∧ ("Foo" : String) ≠ "" := by decide

/-- C6 amended: when a modern field is set to a non-empty string differing
from its set legacy alias (`title`/`name`, `author`/`developer`,
`content`/`description`), the normalized record takes the modern field's
value. -/
theorem pushItem_modern_nonempty_wins (reqType now : String) (fields : JFields)
    (rec : GalleryItem) (h : pushItem reqType now (JVal.obj fields) = some rec) :
    (∀ s s', fields.lookup "title" = some (JVal.str s) →
      fields.lookup "name" = some (JVal.str s') → s ≠ s' → s ≠ "" →
      rec.title = s)
    ∧ (∀ s s', fields.lookup "author" = some (JVal.str s) →
      fields.lookup "developer" = some (JVal.str s') → s ≠ s' → s ≠ "" →
      rec.author = s)
    ∧ (∀ s s', fields.lookup "content" = some (JVal.str s) →
      fields.lookup "description" = some (JVal.str s') → s ≠ s' → s ≠ "" →
      rec.content = s) := by
  obtain ⟨f, id, hobj, hid, hne, hrec⟩ := pushItem_eq_some h
  injection hobj with hf
  subst hf
  subst hrec
  refine ⟨?_, ?_, ?_⟩ <;>
  · intro s s' hm hl hdiff hs
    have hg := (getStr_eq_some_iff fields _ s).mpr hm
    simp [hg, jsOr, jsVal, hs]

/-- Closed instance of `pushItem_modern_nonempty_wins`: a non-empty modern
`title` beats a differing legacy `name`. -/
theorem pushItem_modern_nonempty_wins_witness :
    (normalizeFields "gallery" "t0" "w6"
      [("id", JVal.str "w6"), ("title", JVal.str "A"),
       ("name", JVal.str "B")]).title = "A" :=
  (pushItem_modern_nonempty_wins "gallery" "t0"
    [("id", JVal.str "w6"), ("title", JVal.str "A"), ("name", JVal.str "B")]
    _ rfl).1 "A" "B" rfl rfl (by decide) (by decide)

/-- C7 counterexample input: the explicit image field set to the empty string
and an icon field set to `"icon.png"`. -/
def imageEmptyRaw : JVal :=
  JVal.obj [("id", JVal.str "a"), ("imageUrl", JVal.str ""),
            ("iconUrl", JVal.str "icon.png")]

/-- C7 counterexample: with the explicit `imageUrl` field present (set to
`""`), the normalized `imageUrl` is the icon field's value, not the explicit
image field's value — the JS `||` chain skips the falsy empty string. -/
theorem imageUrl_empty_skipped_cex :
    (pushItem "gallery" "t0" imageEmptyRaw).map (fun r => r.imageUrl) =
      some (some "icon.png") ∧ some "icon.png" ≠ some ("" : String) := by decide

/-- C7 amended: `imageUrl` is derived by priority among truthy candidates —
a non-empty explicit image field, else a non-empty explicit icon field, else
the first string element of the image-array field; and when the image-array
field has no string elements, `screenshotUrls` is the single-element list
holding the derived non-empty `imageUrl`, or empty when none was derived. -/
theorem pushItem_primaryImage_priority (reqType now : String) (fields : JFields)
    (rec : GalleryItem) (h : pushItem reqType now (JVal.obj fields) = some rec) :
    (∀ s, getStr fields "imageUrl" = some s → s ≠ "" → rec.imageUrl = some s)
    ∧ ((getStr fields "imageUrl" = none ∨ getStr fields "imageUrl" = some "") →
        ∀ s, getStr fields "iconUrl" = some s → s ≠ "" → rec.imageUrl = some s)
    ∧ ((getStr fields "imageUrl" = none ∨ getStr fields "imageUrl" = some "") →
        (getStr fields "iconUrl" = none ∨ getStr fields "iconUrl" = some "") →
        rec.imageUrl = (getArrStr fields "screenshotUrls").head?)
    ∧ (getArrStr fields "screenshotUrls" = [] →
        (∀ u, rec.imageUrl = some u → u ≠ "" → rec.screenshotUrls = [u])
        ∧ (rec.imageUrl = none → rec.screenshotUrls = [])) := by
  obtain ⟨f, id, hobj, hid, hne, hrec⟩ := pushItem_eq_some h
  injection hobj with hf
  subst hf
  subst hrec
  refine ⟨?_, ?_, ?_, ?_⟩
  · intro s hi hs
    simp [firstImage, hi, jsOr, hs]
  · intro hiu s hic hs
    rcases hiu with h1 | h1 <;> simp [firstImage, h1, hic, jsOr, hs]
  · intro hiu hic
    rcases hiu with h1 | h1 <;> rcases hic with h2 | h2 <;>
      simp [firstImage, h1, h2, jsOr]
  · intro harr
    constructor
    · intro u hu hune
      simp only [normalizeFields_imageUrl] at hu
      simp [harr, hu, jsTruthy, hune]
    · intro hnone
      simp only [normalizeFields_imageUrl] at hnone
      simp [harr, hnone, jsTruthy]

/-- Closed instance of `pushItem_primaryImage_priority`: a non-empty explicit
image field is taken as `imageUrl`. -/
theorem pushItem_primaryImage_priority_witness :
    (normalizeFields "gallery" "t0" "w7"
      [("id", JVal.str "w7"), ("imageUrl", JVal.str "pic.png")]).imageUrl =
      some "pic.png" :=
  (pushItem_primaryImage_priority "gallery" "t0"
    [("id", JVal.str "w7"), ("imageUrl", JVal.str "pic.png")] _ rfl).1
    "pic.png" rfl (by decide)
